import Mathlib

/-
Verification development for the MindCare depression-detection engine.

Shallow embedding of the core algorithmic modules:
  * backend/utils/score_bdi.py  + backend/config.py   (score aggregation)
  * backend/model/llm_model.py                        (LLM orchestration & parsing)
  * frontend/utils/depression_detection.py            (trend & detection engine)
  * frontend/pages/Personal_Dashboard.py              (session aggregation)

Modelling conventions:
  * Python floats are modelled as exact rationals (ℚ); NaN is modelled by
    Option (none = NaN / NaT / missing value).
  * Timestamps are integers (days for the detection window, an
    order-preserving encoding for parsed upload timestamps).
  * The blocking sleeps performed by the orchestrator are recorded in an
    explicit trace list, in tenths of a second (so 5 s = 50, 2.5 s = 25),
    keeping the trace in kernel-computable naturals.
  * Remote-call outcomes are scripted by explicit oracle functions so that
    every control path of the retry logic is reachable in the model.
-/

namespace MindCare

/-! ## Score aggregation: backend/utils/score_bdi.py and backend/config.py -/

namespace ScoreBDI

/-- One entry of a symptom score map: question id, level, reason.
Mirrors the `{qid: {level, reason}}` dictionaries built by the assessment
pipeline (`symptom` descriptions are presentation-only and omitted). -/
structure SymptomEntry where
  qid : String
  level : Int
  reason : String
  deriving Repr, DecidableEq

/-- A symptom score map, as the ordered list of its entries. -/
abbrev SymptomScoreMap := List SymptomEntry

/-- `Config.BDI_QUESTIONS` -/
def bdiQuestions : Int := 21

/-- `Config.MAX_SCORE_PER_QUESTION` -/
def maxScorePerQuestion : Int := 3

/-- `Config.MAX_TOTAL_SCORE = BDI_QUESTIONS * MAX_SCORE_PER_QUESTION` -/
def maxTotalScore : Int := bdiQuestions * maxScorePerQuestion

/-- `Config.CATEGORIES`, in Python dict insertion order. -/
def categories : List (String × Int × Int) :=
  [("Minimal", 0, 9), ("Mild", 10, 18), ("Moderate", 19, 29), ("Severe", 30, 63)]

/-- `calculate_total_score`: sum the per-symptom levels, capped at 63.
(The Python code reads `data.get('level', 0)` from each entry dict; the
entry's `level` field is exactly that value.) -/
def calculate_total_score (m : SymptomScoreMap) : Int :=
  min ((m.map (·.level)).sum) maxTotalScore

/-- The lookup loop of `get_depression_category`: first band that contains
the score wins; `'Unknown'` if none does. -/
def categoryLookup (score : Int) : List (String × Int × Int) → String
  | [] => "Unknown"
  | (name, lo, hi) :: rest =>
      if lo ≤ score ∧ score ≤ hi then name else categoryLookup score rest

/-- `get_depression_category` -/
def get_depression_category (score : Int) : String :=
  categoryLookup score categories

end ScoreBDI

/-! ## LLM assessment orchestration: backend/model/llm_model.py -/

namespace LLM

open ScoreBDI

/-- The 21 question ids, `REPHRASED_BDI.keys()` in order (Q1..Q21). -/
def qids : List String := (List.range 21).map (fun i => "Q" ++ toString (i + 1))

/-- A line of text, as its character list (so that every parsing step is a
structural recursion the kernel can evaluate). -/
abbrev Line := List Char

/-- Python `str.strip()`: drop whitespace from both ends. (Python also
strips \v and \f, which `Char.isWhitespace` omits; no claim involves
them.) -/
def stripChars (cs : Line) : Line :=
  ((cs.dropWhile Char.isWhitespace).reverse.dropWhile Char.isWhitespace).reverse

/-- Does `cs` start with the pattern `ps`? (Python `str.startswith`.) -/
def startsWithCh : Line → Line → Bool
  | _, [] => true
  | [], _ :: _ => false
  | c :: cs, p :: ps => c = p && startsWithCh cs ps

/-- Python `line.split(":", 1)[1]`: everything after the first colon, or
`none` when the line has no colon (Python then raises IndexError, caught by
the surrounding handler). -/
def afterFirstColonCh : Line → Option Line
  | [] => none
  | c :: cs => if c = ':' then some cs else afterFirstColonCh cs

/-- Decimal digit-string value. -/
def digitsVal (cs : Line) : Option Nat :=
  if cs = [] then none
  else
    cs.foldl
      (fun acc c =>
        match acc with
        | none => none
        | some n => if c.isDigit then some (n * 10 + (c.toNat - 48)) else none)
      (some 0)

/-- Python `int()` on an already-stripped string: optional sign then
decimal digits. (Python additionally accepts digit-group underscores and
non-ASCII digits; no claim involves them.) -/
def toIntCh (cs : Line) : Option Int :=
  match cs with
  | '-' :: rest => (digitsVal rest).map (fun n => -(n : Int))
  | '+' :: rest => (digitsVal rest).map (fun n => (n : Int))
  | _ => (digitsVal cs).map (fun n => (n : Int))

/-- Scan state of `_parse_batch_response`: the levels and reasons recorded
so far (Python builds a dict of dicts keyed by question id). -/
structure ParseState where
  level : String → Option Int
  reason : String → Option String

def initState : ParseState := ⟨fun _ => none, fun _ => none⟩

/-- The value stored by the `_LEVEL:` branch of `_parse_batch_response` for
a (stripped) line: parse the text after the colon as an integer; a parse
failure, a missing colon, or an out-of-range value stores 0. -/
def levelLineValue (line : Line) : Int :=
  match afterFirstColonCh line with
  | some rest =>
      match toIntCh (stripChars rest) with
      | some lv => if lv < 0 ∨ 3 < lv then 0 else lv
      | none => 0
  | none => 0

/-- Whether the `_LEVEL:` branch stores a successfully parsed in-range
level for this (stripped) line; `false` is the malformed path (store 0). -/
def levelLineWellFormed (line : Line) : Bool :=
  match afterFirstColonCh line with
  | some rest =>
      match toIntCh (stripChars rest) with
      | some lv => decide (0 ≤ lv ∧ lv ≤ 3)
      | none => false
  | none => false

/-- The value stored by the `_REASON:` branch for a (stripped) line
(`"Unable to assess"` on the IndexError path of a colonless line). -/
def reasonLineValue (line : Line) : String :=
  match afterFirstColonCh line with
  | some rest => ⟨stripChars rest⟩
  | none => "Unable to assess"

/-- The body of the inner `for i in range(1, 22)` loop of
`_parse_batch_response`, for one candidate question id. -/
def processLineFor (st : ParseState) (line : Line) (qid : String) : ParseState :=
  if startsWithCh line (qid.data ++ "_LEVEL:".data) then
    { st with level := Function.update st.level qid (some (levelLineValue line)) }
  else if startsWithCh line (qid.data ++ "_REASON:".data) then
    { st with reason := Function.update st.reason qid (some (reasonLineValue line)) }
  else st

/-- Processing of one raw line: strip it, then run the inner loop over
Q1..Q21. -/
def processLine (st : ParseState) (rawLine : Line) : ParseState :=
  qids.foldl (fun s q => processLineFor s (stripChars rawLine) q) st

/-- `_parse_batch_response`, over the list of lines of the raw response
(Python `response_text.splitlines()`): scan all lines, then emit one entry
per question id, defaulting a missing level to 0 and a missing reason to
"Unable to assess". -/
def parse_batch_response (lines : List Line) : SymptomScoreMap :=
  let st := lines.foldl processLine initState
  qids.map (fun q => ⟨q, (st.level q).getD 0, (st.reason q).getD "Unable to assess"⟩)

/-- Outcome of one remote completion call, scripted by an oracle. -/
inductive CallOutcome where
  | ok (lines : List Line)
  | transient
  | failure
  deriving Repr, DecidableEq

/-- The retry loop of `predict_level`; `f` scripts the outcome of each
attempt, `fuel` is the number of remaining attempts (`max_retries -
attempt`). Returns (level, reason, backoff sleeps in seconds).

The success branch calls `self._parse_response`, a method that does not
exist anywhere in the class (only `_parse_batch_response` does), so it
raises AttributeError; that message contains neither "429" nor "504", so
the non-transient handler returns `(None, "Error: ...")`. -/
def predictLevelGo (f : Nat → CallOutcome) : Nat → Nat → Option Int × String × List Nat
  | 0, _ => (none, "Max retries exceeded", [])
  | fuel + 1, attempt =>
      match f attempt with
      | .ok _ => (none, "Error: AttributeError: _parse_response", [])
      | .failure => (none, "Error: service failure", [])
      | .transient =>
          if fuel = 0 then (none, "Rate limit exceeded", [])
          else
            let r := predictLevelGo f fuel (attempt + 1)
            (r.1, r.2.1, (attempt + 1) * 50 :: r.2.2)

/-- `predict_level` with its default `max_retries = 5`. -/
def predict_level (f : Nat → CallOutcome) : Option Int × String × List Nat :=
  predictLevelGo f 5 0

/-- One result entry of the fallback loop: `level if level is not None
else 0`, `reason or "Unable to assess"` (Python `or` treats the empty
string like None). The per-entry `symptom` description is presentation
data and omitted. -/
def fallbackEntry (script : Nat → CallOutcome) (q : String) : SymptomEntry :=
  let r := predict_level script
  ⟨q, (r.1).getD 0, if r.2.1 = "" then "Unable to assess" else r.2.1⟩

/-- The loop of `_assess_all_symptoms_fallback` over the remaining question
ids, starting at index `i` of `n` total; a 2.5 s spacing sleep is inserted
after every symptom except the last. `scripts i` is the outcome oracle for
the `i`-th symptom's `predict_level` call sequence. -/
def fallbackAux (scripts : Nat → Nat → CallOutcome) (n : Nat) :
    List String → Nat → SymptomScoreMap × List Nat
  | [], _ => ([], [])
  | q :: rest, i =>
      let r := predict_level (scripts i)
      let tail := fallbackAux scripts n rest (i + 1)
      (fallbackEntry (scripts i) q :: tail.1,
        r.2.2 ++ (if i < n - 1 then [25] else []) ++ tail.2)

/-- `_assess_all_symptoms_fallback`. -/
def assess_all_symptoms_fallback (scripts : Nat → Nat → CallOutcome) :
    SymptomScoreMap × List Nat :=
  fallbackAux scripts qids.length qids 0

/-- The retry loop of `assess_all_symptoms_batch` (default
`max_retries = 3`); `bs` scripts the batch attempts, `fb` the per-symptom
fallback calls. Returns (result map, sleeps in seconds, used-fallback?). -/
def assessBatchGo (bs : Nat → CallOutcome) (fb : Nat → Nat → CallOutcome) :
    Nat → Nat → SymptomScoreMap × List Nat × Bool
  | 0, _ =>
      let r := assess_all_symptoms_fallback fb
      (r.1, r.2, true)
  | fuel + 1, attempt =>
      match bs attempt with
      | .ok lines => (parse_batch_response lines, [], false)
      | .failure =>
          let r := assess_all_symptoms_fallback fb
          (r.1, r.2, true)
      | .transient =>
          if fuel = 0 then
            let r := assess_all_symptoms_fallback fb
            (r.1, r.2, true)
          else
            let r := assessBatchGo bs fb fuel (attempt + 1)
            (r.1, (attempt + 1) * 50 :: r.2.1, r.2.2)

/-- `assess_all_symptoms_batch` with its default `max_retries = 3`. -/
def assess_all_symptoms_batch (bs : Nat → CallOutcome) (fb : Nat → Nat → CallOutcome) :
    SymptomScoreMap × List Nat × Bool :=
  assessBatchGo bs fb 3 0

end LLM

/-! ## Trend & detection engine: frontend/utils/depression_detection.py -/

namespace DepressionDetection

/-- One row of the entry DataFrame handed to `analyze_depression`, after
the per-column coercions: `datetime` (in days; `none` = NaT after
`pd.to_datetime(errors="coerce")`) and `bdi_total_score` (`none` = NaN
after `pd.to_numeric(errors="coerce")`). The context-only columns
(`bdi_severity`, `sentiment_label`, `assessment_data`, `text`) feed only
presentation outputs and are omitted. -/
structure EntryRow where
  dt : Option Int
  score : Option ℚ
  deriving Repr, DecidableEq

/-- The output of `analyze_depression` (the presentation-only fields
`time_span_days`, `top_symptoms` and `explanation` are omitted: no claim
concerns them). -/
structure DetectionResult where
  depression_detected : Bool
  overall_severity : String
  trend_direction : String
  confidence_level : String
  entries_used : Nat
  deriving Repr, DecidableEq

/-- `BDI_MILD_THRESHOLD` -/
def mildThreshold : ℚ := 10

/-- `STREAK_MIN` -/
def streakMin : Nat := 5

/-- `MIN_ENTRIES_FOR_DETECTION` -/
def minEntriesForDetection : Nat := 10

/-- The loop of `_has_streak`, carrying the current run length. -/
def hasStreakGo (minLen : Nat) : Nat → List Bool → Bool
  | _, [] => false
  | run, v :: rest =>
      let run2 := if v then run + 1 else 0
      if minLen ≤ run2 then true else hasStreakGo minLen run2 rest

/-- `_has_streak`: is there a run of at least `minLen` consecutive `true`
flags? (`False` on the empty list.) -/
def has_streak (values : List Bool) (minLen : Nat) : Bool :=
  hasStreakGo minLen 0 values

/-- The rows surviving `dropna(subset=["datetime", "bdi_total_score"])`,
as (datetime, score) pairs. -/
def validEntries (rows : List EntryRow) : List (Int × ℚ) :=
  rows.filterMap (fun r =>
    match r.dt, r.score with
    | some d, some s => some (d, s)
    | _, _ => none)

/-- `sort_values("datetime")` on the valid entries. (The relative order of
equal timestamps is unspecified in pandas' default sort and no claim
depends on it.) -/
def sortedEntries (rows : List EntryRow) : List (Int × ℚ) :=
  List.insertionSort (fun a b => a.1 ≤ b.1) (validEntries rows)

/-- The detection window: valid entries within `windowDays` of the most
recent entry's timestamp (`recent = work[work["datetime"] >= cutoff]`). -/
def windowEntries (rows : List EntryRow) (windowDays : Int) : List (Int × ℚ) :=
  let work := sortedEntries rows
  let latest := ((work.map Prod.fst).max?).getD 0
  work.filter (fun p => decide (latest - windowDays ≤ p.1))

/-- The per-entry low-mood flags of the window
(`recent_scores >= BDI_MILD_THRESHOLD`). -/
def windowFlags (rows : List EntryRow) (windowDays : Int) : List Bool :=
  (windowEntries rows windowDays).map (fun p => decide (mildThreshold ≤ p.2))

/-- `np.mean(flags) if flags else 0.0`. -/
def flagProportion (flags : List Bool) : ℚ :=
  if flags = [] then 0 else (flags.count true : ℚ) / (flags.length : ℚ)

/-- Mean of a rational list (`Series.mean()`; callers guard emptiness). -/
def mean (l : List ℚ) : ℚ := l.sum / (l.length : ℚ)

/-- `_label_severity` of depression_detection.py: the `none` case is the
`pd.isna` branch. -/
def label_severity (s : Option ℚ) : String :=
  match s with
  | none => "Minimal"
  | some v =>
      if v < 10 then "Minimal"
      else if v < 19 then "Mild"
      else if v < 30 then "Moderate"
      else "Severe"

/-- The result returned on an empty / all-invalid DataFrame. -/
def emptyResult : DetectionResult :=
  ⟨false, "Minimal", "Stable", "Low", 0⟩

/-- `analyze_depression` (default `window_days = 30`). -/
def analyze_depression (rows : List EntryRow) (windowDays : Int := 30) : DetectionResult :=
  let work := sortedEntries rows
  if work = [] then emptyResult
  else
    let total := work.length
    let recent := windowEntries rows windowDays
    let entriesUsed := recent.length
    let minDataOk := minEntriesForDetection ≤ total
    let flags := windowFlags rows windowDays
    let proportion := flagProportion flags
    let detected := decide minDataOk && decide (0 < entriesUsed) &&
      (decide ((1 : ℚ) / 2 ≤ proportion) || has_streak flags streakMin)
    let last7 := (work.drop (total - 7)).map Prod.snd
    let avgLast7 : Option ℚ := if last7 = [] then none else some (mean last7)
    let severity := label_severity avgLast7
    let trend :=
      if 4 ≤ total then
        let mid := total / 2
        let earlyAvg := mean ((work.take mid).map Prod.snd)
        let recentAvg := mean ((work.drop mid).map Prod.snd)
        if recentAvg + 1 / 2 < earlyAvg then "Improving"
        else if earlyAvg + 1 / 2 < recentAvg then "Worsening"
        else "Stable"
      else "Stable"
    let confidence :=
      if total < minEntriesForDetection then "Low"
      else if total < 20 then "Medium"
      else "High"
    ⟨detected, severity, trend, confidence, entriesUsed⟩

/-- Modelled from the spec's words (§4.5 step 7, refinement reference):
split the time-ordered score list at its midpoint index, compare the half
means with absolute tolerance 0.5; fewer than 4 scores gives "Stable". -/
def trendDirectionSpec (scores : List ℚ) : String :=
  if scores.length < 4 then "Stable"
  else
    let mid := scores.length / 2
    let earlierMean := mean (scores.take mid)
    let recentMean := mean (scores.drop mid)
    if recentMean < earlierMean - 1 / 2 then "Improving"
    else if recentMean > earlierMean + 1 / 2 then "Worsening"
    else "Stable"

end DepressionDetection

/-! ## Session aggregation: frontend/pages/Personal_Dashboard.py -/

namespace PersonalDashboard

/-- One row of the per-entry DataFrame fed to `_build_session_df`:
`entry_type` ("by_typing" / "by_upload"), the upload batch key
`uploaded_file`, the entry id, the coerced `datetime` (`none` = NaT) and
`bdi_total_score` (`none` = NaN). The presentation-only columns
(`bdi_severity`, `sentiment_label`, `assessment_data`, `text`) are
omitted: no claim depends on them. -/
structure UploadEntry where
  entry_type : String
  uploaded_file : Option String
  entry_id : Option String
  dt : Option Int
  score : Option ℚ
  deriving Repr, DecidableEq

/-- One row of the session DataFrame built by `_build_session_df`
(`bdi_severity`, `sentiment_label` and the averaged `assessment_data` are
presentation data and omitted). `score` is `avg_total_score` (`none` =
NaN, when no member has a numeric score). -/
structure SessionRow where
  session_type : String
  session_id : String
  dt : Int
  score : Option ℚ
  deriving Repr, DecidableEq

/-- Gregorian month length, as validated by Python's `datetime`
constructor. -/
def daysInMonth (y m : Nat) : Nat :=
  if m = 2 then
    if (y % 4 = 0 ∧ y % 100 ≠ 0) ∨ y % 400 = 0 then 29 else 28
  else if m = 4 ∨ m = 6 ∨ m = 9 ∨ m = 11 then 30
  else 31

/-- Two-digit value. -/
def digit2 (a b : Char) : Nat := (a.toNat - 48) * 10 + (b.toNat - 48)

/-- Four-digit value. -/
def digit4 (a b c d : Char) : Nat :=
  ((a.toNat - 48) * 10 + (b.toNat - 48)) * 100 + digit2 c d

/-- Order-preserving integer encoding of a calendar timestamp (the claims
compare and maximise timestamps; only the ordering matters). -/
def encodeDateTime (y mo d h mi s : Nat) : Int :=
  (((((y : Int) * 13 + mo) * 32 + d) * 24 + h) * 60 + mi) * 60 + s

/-- `datetime.strptime(ts, "%Y%m%d_%H%M%S")`: the token must be exactly 4
year digits, 2 month digits, 2 day digits, an underscore, then 2+2+2 clock
digits, and the calendar/clock ranges enforced by the `datetime`
constructor must hold (year ≥ 1, valid month/day, hour ≤ 23,
minute/second ≤ 59); any violation raises, which the caller turns into
`None`. -/
def strptimeYmdHms (cs : List Char) : Option Int :=
  match cs with
  | [y1, y2, y3, y4, mo1, mo2, d1, d2, u, h1, h2, mi1, mi2, s1, s2] =>
      if (y1.isDigit ∧ y2.isDigit ∧ y3.isDigit ∧ y4.isDigit ∧
          mo1.isDigit ∧ mo2.isDigit ∧ d1.isDigit ∧ d2.isDigit ∧ u = '_' ∧
          h1.isDigit ∧ h2.isDigit ∧ mi1.isDigit ∧ mi2.isDigit ∧
          s1.isDigit ∧ s2.isDigit) then
        let y := digit4 y1 y2 y3 y4
        let mo := digit2 mo1 mo2
        let d := digit2 d1 d2
        let h := digit2 h1 h2
        let mi := digit2 mi1 mi2
        let s := digit2 s1 s2
        if 1 ≤ y ∧ 1 ≤ mo ∧ mo ≤ 12 ∧ 1 ≤ d ∧ d ≤ daysInMonth y mo ∧
            h ≤ 23 ∧ mi ≤ 59 ∧ s ≤ 59 then
          some (encodeDateTime y mo d h mi s)
        else none
      else none
  | _ => none

/-- Python `s[-15:]` (the whole string when shorter than 15). -/
def lastN (n : Nat) (cs : List Char) : List Char := cs.drop (cs.length - n)

/-- `_parse_uploaded_file_timestamp`: `None` when the name has no
underscore (or, in Python, is not a string); otherwise `strptime` on the
trailing 15 characters. -/
def parse_uploaded_file_timestamp (s : String) : Option Int :=
  if s.data.contains '_' = false then none
  else strptimeYmdHms (lastN 15 s.data)

/-- The rows surviving `dropna(subset=["datetime"])`. -/
def validWork (entries : List UploadEntry) : List UploadEntry :=
  entries.filter (fun e => decide (e.dt ≠ none))

/-- The `by_upload` rows of the valid work. -/
def uploadsOf (entries : List UploadEntry) : List UploadEntry :=
  (validWork entries).filter (fun e => decide (e.entry_type = "by_upload"))

/-- The member group of one uploaded-file key (`uploads.groupby`). -/
def uploadGroup (entries : List UploadEntry) (k : String) : List UploadEntry :=
  (uploadsOf entries).filter (fun e => decide (e.uploaded_file = some k))

/-- Python `str(entry_id)` (`str(None)` is the string "None"). -/
def strOfId : Option String → String
  | some s => s
  | none => "None"

/-- The session row built for one uploaded-file group, or `none` when the
loop `continue`s (empty key, or no usable timestamp): parse the batch
timestamp from the key, falling back to the members' latest datetime;
average the members' numeric scores. -/
def uploadSessionFor (uploads : List UploadEntry) (k : String) : Option SessionRow :=
  if k = "" then none
  else
    let g := uploads.filter (fun e => decide (e.uploaded_file = some k))
    let sdt : Option Int :=
      match parse_uploaded_file_timestamp k with
      | some t => some t
      | none => (g.filterMap (fun e => e.dt)).max?
    match sdt with
    | none => none
    | some t =>
        let scores := g.filterMap (fun e => e.score)
        let avg : Option ℚ :=
          if scores = [] then none
          else some (scores.sum / (scores.length : ℚ))
        some ⟨"upload", k, t, avg⟩

/-- `_build_session_df`: typed entries become one session each; upload
entries collapse to one session per distinct non-empty `uploaded_file`
key; the result is sorted by timestamp. (Pandas `groupby` iterates keys
in sorted order, the model in first-appearance order: no claim depends on
the enumeration order of the groups. The final `dropna` is a no-op here
because every produced row carries a timestamp.) -/
def build_session_df (entries : List UploadEntry) : List SessionRow :=
  let work := validWork entries
  let typed := work.filter (fun e => decide (e.entry_type ≠ "by_upload"))
  let typedRows := typed.map (fun e =>
    ⟨"typed", strOfId e.entry_id, e.dt.getD 0, e.score⟩)
  let uploads := uploadsOf entries
  let keys := (uploads.filterMap (fun e => e.uploaded_file)).dedup
  let uploadRows := keys.filterMap (uploadSessionFor uploads)
  List.insertionSort (fun a b => a.dt ≤ b.dt) (typedRows ++ uploadRows)

end PersonalDashboard

end MindCare

namespace MindCare

namespace ScoreBDI

/-! ### Lemmas and claim theorems for the score aggregator -/

theorem sum_le_of_forall_le (l : List Int) (b : Int) (h : ∀ x ∈ l, x ≤ b) :
    l.sum ≤ b * l.length := by
  induction l with
  | nil => simp
  | cons a t ih =>
      simp only [List.sum_cons, List.length_cons]
      have ha : a ≤ b := h a (List.mem_cons_self a t)
      have ht : t.sum ≤ b * t.length := ih (fun x hx => h x (List.mem_cons_of_mem a hx))
      push_cast
      nlinarith [ht, ha]

theorem sum_nonneg_of_forall_nonneg (l : List Int) (h : ∀ x ∈ l, 0 ≤ x) :
    0 ≤ l.sum := by
  induction l with
  | nil => simp
  | cons a t ih =>
      simp only [List.sum_cons]
      have ha : 0 ≤ a := h a (List.mem_cons_self a t)
      have ht : 0 ≤ t.sum := ih (fun x hx => h x (List.mem_cons_of_mem a hx))
      linarith

/-- C4: for every symptom score map with 21 entries whose levels lie in
{0,1,2,3}, `calculate_total_score` lands in [0,63]; every integer in [0,63]
lies in exactly one of the four category bands and
`get_depression_category` returns that band's label (one of the four);
every integer outside [0,63] maps to the explicit "Unknown" sentinel. -/
theorem total_score_bounds_and_category_bands (m : SymptomScoreMap)
    (h21 : m.length = 21)
    (hlv : ∀ e ∈ m, 0 ≤ e.level ∧ e.level ≤ 3) :
    (0 ≤ calculate_total_score m ∧ calculate_total_score m ≤ 63) ∧
    (∀ s : Int, 0 ≤ s → s ≤ 63 →
      (categories.filter (fun b => decide (b.2.1 ≤ s ∧ s ≤ b.2.2))).length = 1 ∧
      get_depression_category s ∈ ["Minimal", "Mild", "Moderate", "Severe"] ∧
      (∀ b ∈ categories, (b.2.1 ≤ s ∧ s ≤ b.2.2) → get_depression_category s = b.1)) ∧
    (∀ s : Int, (s < 0 ∨ 63 < s) → get_depression_category s = "Unknown") := by
  refine ⟨⟨?_, ?_⟩, ?_, ?_⟩
  · have h0 : 0 ≤ (m.map (·.level)).sum := by
      apply sum_nonneg_of_forall_nonneg
      intro x hx
      rcases List.mem_map.mp hx with ⟨e, he, rfl⟩
      exact (hlv e he).1
    have : (0 : Int) ≤ maxTotalScore := by decide
    simp only [calculate_total_score, le_min_iff]
    exact ⟨h0, this⟩
  · have hle : (m.map (·.level)).sum ≤ 3 * (m.map (·.level)).length := by
      apply sum_le_of_forall_le
      intro x hx
      rcases List.mem_map.mp hx with ⟨e, he, rfl⟩
      exact (hlv e he).2
    have hlen : (m.map (·.level)).length = 21 := by simp [h21]
    rw [hlen] at hle
    have : calculate_total_score m ≤ maxTotalScore := min_le_right _ _
    calc calculate_total_score m ≤ maxTotalScore := this
      _ = 63 := by decide
  · intro s hs0 hs63
    refine ⟨?_, ?_, ?_⟩
    · interval_cases s <;> decide
    · interval_cases s <;> decide
    · interval_cases s <;> decide
  · intro s hs
    rcases hs with h | h
    · simp only [get_depression_category, categories, categoryLookup]
      have h1 : ¬ ((0:Int) ≤ s ∧ s ≤ 9) := by omega
      have h2 : ¬ ((10:Int) ≤ s ∧ s ≤ 18) := by omega
      have h3 : ¬ ((19:Int) ≤ s ∧ s ≤ 29) := by omega
      have h4 : ¬ ((30:Int) ≤ s ∧ s ≤ 63) := by omega
      simp [h1, h2, h3, h4]
    · simp only [get_depression_category, categories, categoryLookup]
      have h1 : ¬ ((0:Int) ≤ s ∧ s ≤ 9) := by omega
      have h2 : ¬ ((10:Int) ≤ s ∧ s ≤ 18) := by omega
      have h3 : ¬ ((19:Int) ≤ s ∧ s ≤ 29) := by omega
      have h4 : ¬ ((30:Int) ≤ s ∧ s ≤ 63) := by omega
      simp [h1, h2, h3, h4]

/-- Witness for C4 at a concrete 21-entry map (all levels 1). -/
theorem total_score_bounds_and_category_bands_witness :
    ((List.replicate 21 (⟨"Q1", 1, "ok"⟩ : SymptomEntry)).length = 21) ∧
    (0 ≤ calculate_total_score (List.replicate 21 ⟨"Q1", 1, "ok"⟩) ∧
      calculate_total_score (List.replicate 21 ⟨"Q1", 1, "ok"⟩) ≤ 63) := by
  have h21 : (List.replicate 21 (⟨"Q1", 1, "ok"⟩ : SymptomEntry)).length = 21 := by decide
  have hlv : ∀ e ∈ (List.replicate 21 (⟨"Q1", 1, "ok"⟩ : SymptomEntry)),
      0 ≤ e.level ∧ e.level ≤ 3 := by decide
  exact ⟨h21, (total_score_bounds_and_category_bands _ h21 hlv).1⟩

end ScoreBDI

namespace LLM

open ScoreBDI

/-! ### Lemmas and claim theorems for the parser and the orchestrator -/

theorem qids_length : qids.length = 21 := by decide

theorem levelLineValue_bounds (line : Line) :
    0 ≤ levelLineValue line ∧ levelLineValue line ≤ 3 := by
  unfold levelLineValue
  cases hc : afterFirstColonCh line with
  | none => simp
  | some rest =>
      dsimp only
      cases hi : toIntCh (stripChars rest) with
      | none => simp
      | some lv =>
          dsimp only
          by_cases h : lv < 0 ∨ 3 < lv
          · rw [if_pos h]; simp
          · rw [if_neg h]
            push_neg at h
            exact ⟨h.1, h.2⟩

theorem levelLineValue_eq_zero_of_malformed (line : Line)
    (h : levelLineWellFormed line = false) : levelLineValue line = 0 := by
  unfold levelLineWellFormed at h
  unfold levelLineValue
  cases hc : afterFirstColonCh line with
  | none => simp
  | some rest =>
      rw [hc] at h
      dsimp only at h ⊢
      cases hi : toIntCh (stripChars rest) with
      | none => rfl
      | some lv =>
          rw [hi] at h
          simp only [decide_eq_false_iff_not, not_and, not_le] at h
          have hrange : lv < 0 ∨ 3 < lv := by
            by_cases h0 : 0 ≤ lv
            · exact Or.inr (h h0)
            · exact Or.inl (by omega)
          show (if lv < 0 ∨ 3 < lv then (0 : Int) else lv) = 0
          rw [if_pos hrange]

theorem processLineFor_levelInv (st : ParseState) (line : Line) (qid : String)
    (h : ∀ q l, st.level q = some l → 0 ≤ l ∧ l ≤ 3) :
    ∀ q l, (processLineFor st line qid).level q = some l → 0 ≤ l ∧ l ≤ 3 := by
  intro q l
  unfold processLineFor
  split
  · by_cases hq : q = qid
    · subst hq
      simp only [Function.update_same]
      intro hl
      cases hl
      exact levelLineValue_bounds line
    · simp only [Function.update_noteq hq]
      exact h q l
  · split
    · exact h q l
    · exact h q l

theorem foldl_processLineFor_levelInv (line : Line) :
    ∀ (l : List String) (st : ParseState),
      (∀ q lv, st.level q = some lv → 0 ≤ lv ∧ lv ≤ 3) →
      ∀ q lv, (l.foldl (fun s q2 => processLineFor s line q2) st).level q = some lv →
        0 ≤ lv ∧ lv ≤ 3 := by
  intro l
  induction l with
  | nil => intro st h q lv; exact h q lv
  | cons a t ih =>
      intro st h q lv
      simp only [List.foldl_cons]
      exact ih (processLineFor st line a) (processLineFor_levelInv st line a h) q lv

theorem foldl_processLine_levelInv :
    ∀ (lines : List Line) (st : ParseState),
      (∀ q lv, st.level q = some lv → 0 ≤ lv ∧ lv ≤ 3) →
      ∀ q lv, (lines.foldl processLine st).level q = some lv → 0 ≤ lv ∧ lv ≤ 3 := by
  intro lines
  induction lines with
  | nil => intro st h q lv; exact h q lv
  | cons a t ih =>
      intro st h q lv
      simp only [List.foldl_cons]
      exact ih (processLine st a)
        (fun q2 lv2 => foldl_processLineFor_levelInv (stripChars a) qids st h q2 lv2) q lv

theorem parse_batch_response_shape (lines : List Line) :
    (parse_batch_response lines).map (·.qid) = qids ∧
    (parse_batch_response lines).length = 21 ∧
    ∀ e ∈ parse_batch_response lines, 0 ≤ e.level ∧ e.level ≤ 3 := by
  refine ⟨?_, ?_, ?_⟩
  · simp [parse_batch_response, Function.comp_def]
  · simp only [parse_batch_response, List.length_map]
    exact qids_length
  · intro e he
    simp only [parse_batch_response, List.mem_map] at he
    obtain ⟨q, _, rfl⟩ := he
    simp only
    cases hl : (lines.foldl processLine initState).level q with
    | none => exact ⟨le_refl 0, by norm_num⟩
    | some lv =>
        simp only [Option.getD_some]
        exact foldl_processLine_levelInv lines initState (fun _ _ h => by cases h) q lv hl

theorem predictLevelGo_level_none (f : Nat → CallOutcome) :
    ∀ fuel attempt, (predictLevelGo f fuel attempt).1 = none := by
  intro fuel
  induction fuel with
  | zero => intro attempt; rfl
  | succ n ih =>
      intro attempt
      unfold predictLevelGo
      cases f attempt with
      | ok lines => rfl
      | failure => rfl
      | transient =>
          by_cases h : n = 0
          · simp only [if_pos h]
          · simp only [if_neg h]
            exact ih (attempt + 1)

theorem fallbackAux_shape (scripts : Nat → Nat → CallOutcome) (n : Nat) :
    ∀ (l : List String) (i : Nat),
      ((fallbackAux scripts n l i).1.map (·.qid) = l) ∧
      (∀ e ∈ (fallbackAux scripts n l i).1, e.level = 0) := by
  intro l
  induction l with
  | nil => intro i; exact ⟨rfl, by intro e he; cases he⟩
  | cons q rest ih =>
      intro i
      unfold fallbackAux
      constructor
      · simp only [List.map_cons, fallbackEntry]
        rw [(ih (i + 1)).1]
      · intro e he
        simp only [List.mem_cons] at he
        rcases he with rfl | he
        · simp only [fallbackEntry, predict_level, predictLevelGo_level_none,
            Option.getD_none]
        · exact (ih (i + 1)).2 e he

theorem assessBatchGo_shape (bs : Nat → CallOutcome) (fb : Nat → Nat → CallOutcome) :
    ∀ fuel attempt,
      (assessBatchGo bs fb fuel attempt).1.map (·.qid) = qids ∧
      ∀ e ∈ (assessBatchGo bs fb fuel attempt).1, 0 ≤ e.level ∧ e.level ≤ 3 := by
  have hfb : ∀ e ∈ (assess_all_symptoms_fallback fb).1, 0 ≤ e.level ∧ e.level ≤ 3 := by
    intro e he
    rw [(fallbackAux_shape fb qids.length qids 0).2 e he]
    exact ⟨le_refl 0, by norm_num⟩
  intro fuel
  induction fuel with
  | zero =>
      intro attempt
      exact ⟨(fallbackAux_shape fb qids.length qids 0).1, hfb⟩
  | succ n ih =>
      intro attempt
      unfold assessBatchGo
      cases bs attempt with
      | ok lines =>
          exact ⟨(parse_batch_response_shape lines).1,
            fun e he => (parse_batch_response_shape lines).2.2 e he⟩
      | failure =>
          exact ⟨(fallbackAux_shape fb qids.length qids 0).1, hfb⟩
      | transient =>
          by_cases h : n = 0
          · simp only [if_pos h]
            exact ⟨(fallbackAux_shape fb qids.length qids 0).1, hfb⟩
          · simp only [if_neg h]
            exact ⟨(ih (attempt + 1)).1, fun e he => (ih (attempt + 1)).2 e he⟩

/-- C3 (amended): across every outcome of the completion service (batch
success, batch retry exhaustion, fallback success, fallback partial
failure) the assessment returned by `assess_all_symptoms_batch` carries
exactly the 21 symptom keys Q1..Q21 in order, each with a level in [0,3]
and a reason string; no partial map and no exception is possible because
every code path returns a fully populated 21-entry map. (Amendment forced
by the counterexample: the reason string is NOT always non-empty — a
response line carrying a reason tag with empty text is stored verbatim as
the empty string.) -/
theorem assessment_always_complete (bs : Nat → CallOutcome) (fb : Nat → Nat → CallOutcome) :
    (assess_all_symptoms_batch bs fb).1.map (·.qid) = qids ∧
    (assess_all_symptoms_batch bs fb).1.length = 21 ∧
    ∀ e ∈ (assess_all_symptoms_batch bs fb).1, 0 ≤ e.level ∧ e.level ≤ 3 := by
  have h := assessBatchGo_shape bs fb 3 0
  refine ⟨h.1, ?_, h.2⟩
  have := congrArg List.length h.1
  simpa [qids_length] using this

/-- C3 counterexample: a successful batch completion whose raw response
contains the single line "Q1_REASON:" produces an assessment whose Q1
reason is the EMPTY string, refuting the claim that every symptom is
mapped to a non-empty reason string. -/
theorem assessment_reason_empty_cx :
    (assess_all_symptoms_batch (fun _ => CallOutcome.ok ["Q1_REASON:".data])
        (fun _ _ => CallOutcome.failure)).1.head? =
      some ⟨"Q1", 0, ""⟩ := by decide

theorem predictLevelGo_sleeps_nil (f : Nat → CallOutcome) (fuel attempt : Nat)
    (h : f attempt ≠ CallOutcome.transient) :
    (predictLevelGo f (fuel + 1) attempt).2.2 = [] := by
  unfold predictLevelGo
  cases hf : f attempt with
  | ok lines => rfl
  | failure => rfl
  | transient => exact absurd hf h

theorem fallbackAux_sleeps_spacing (scripts : Nat → Nat → CallOutcome)
    (h : ∀ i, scripts i 0 ≠ CallOutcome.transient) (n : Nat) :
    ∀ (l : List String) (i : Nat), i + l.length = n →
      (fallbackAux scripts n l i).2 = List.replicate (l.length - 1) 25 := by
  intro l
  induction l with
  | nil => intro i _; rfl
  | cons q rest ih =>
      intro i hlen
      have hs : (predict_level (scripts i)).2.2 = [] :=
        predictLevelGo_sleeps_nil (scripts i) 4 0 (h i)
      show (predict_level (scripts i)).2.2 ++ (if i < n - 1 then [25] else []) ++
          (fallbackAux scripts n rest (i + 1)).2 = _
      cases rest with
      | nil =>
          have hi : ¬ (i < n - 1) := by
            simp only [List.length_cons, List.length_nil] at hlen
            omega
          rw [hs, if_neg hi]
          rfl
      | cons q2 rest2 =>
          have hilen : i + 1 + (q2 :: rest2).length = n := by
            simp only [List.length_cons] at hlen ⊢
            omega
          have hi : i < n - 1 := by
            simp only [List.length_cons] at hlen
            omega
          rw [hs, if_pos hi, ih (i + 1) hilen]
          simp [List.replicate_succ]

/-- C5 (amended): when the batch completion request fails transiently
(rate-limit / timeout) on all 3 attempts, the orchestrator waits 5 s then
10 s between the failures — the third failure invokes the per-symptom
fallback directly, with no further backoff wait (in particular never a
15 s wait) — and the fallback performs its 21 sequential calls with a
2.5 s pause between consecutive calls (20 pauses), instead of raising to
the caller. The sleep trace is in tenths of a second. -/
theorem batch_transient_retries_then_fallback (fb : Nat → Nat → CallOutcome)
    (h : ∀ i, fb i 0 ≠ CallOutcome.transient) :
    assess_all_symptoms_batch (fun _ => CallOutcome.transient) fb =
      ((assess_all_symptoms_fallback fb).1,
        50 :: 100 :: (assess_all_symptoms_fallback fb).2, true) ∧
    (assess_all_symptoms_fallback fb).2 = List.replicate 20 25 := by
  constructor
  · rfl
  · have h2 := fallbackAux_sleeps_spacing fb h qids.length qids 0 (by simp)
    rw [qids_length] at h2
    exact h2

/-- Witness for C5 (amended) at a concrete fallback oracle whose calls all
fail outright on the first attempt. -/
theorem batch_transient_retries_then_fallback_witness :
    (∀ i : Nat, (fun (_ _ : Nat) => CallOutcome.failure) i 0 ≠ CallOutcome.transient) ∧
    (assess_all_symptoms_fallback (fun _ _ => CallOutcome.failure)).2 =
      List.replicate 20 25 := by
  constructor
  · intro i hx
    cases hx
  · exact (batch_transient_retries_then_fallback (fun _ _ => CallOutcome.failure)
      (by intro i hx; cases hx)).2

/-- C5 counterexample: with the batch request failing transiently on all
3 attempts, the recorded sleeps are 5 s and 10 s followed by the twenty
2.5 s fallback pauses — a 15 s wait (150 tenths) never occurs, refuting
the claimed 5 s, 10 s, 15 s backoff sequence. -/
theorem batch_retry_sleeps_cx :
    (assess_all_symptoms_batch (fun _ => CallOutcome.transient)
        (fun _ _ => CallOutcome.failure)).2.1 = [50, 100] ++ List.replicate 20 25 ∧
    150 ∉ (assess_all_symptoms_batch (fun _ => CallOutcome.transient)
        (fun _ _ => CallOutcome.failure)).2.1 := by decide

theorem foldl_processLineFor_qInv (line : Line) (q : String)
    (hlv : startsWithCh line (q.data ++ "_LEVEL:".data) = true →
      levelLineWellFormed line = false)
    (hr : startsWithCh line (q.data ++ "_REASON:".data) = false) :
    ∀ (l : List String) (st : ParseState),
      (∀ lv, st.level q = some lv → lv = 0) → st.reason q = none →
      (∀ lv, (l.foldl (fun s q2 => processLineFor s line q2) st).level q = some lv →
        lv = 0) ∧
      (l.foldl (fun s q2 => processLineFor s line q2) st).reason q = none := by
  intro l
  induction l with
  | nil => intro st h1 h2; exact ⟨h1, h2⟩
  | cons a t ih =>
      intro st h1 h2
      simp only [List.foldl_cons]
      apply ih
      · intro lv hlv2
        unfold processLineFor at hlv2
        by_cases ha : startsWithCh line (a.data ++ "_LEVEL:".data) = true
        · rw [if_pos ha] at hlv2
          simp only at hlv2
          by_cases haq : q = a
          · subst haq
            rw [Function.update_same] at hlv2
            cases hlv2
            exact levelLineValue_eq_zero_of_malformed line (hlv ha)
          · rw [Function.update_noteq haq] at hlv2
            exact h1 lv hlv2
        · rw [if_neg ha] at hlv2
          by_cases hb : startsWithCh line (a.data ++ "_REASON:".data) = true
          · rw [if_pos hb] at hlv2
            exact h1 lv hlv2
          · rw [if_neg hb] at hlv2
            exact h1 lv hlv2
      · unfold processLineFor
        by_cases ha : startsWithCh line (a.data ++ "_LEVEL:".data) = true
        · rw [if_pos ha]
          exact h2
        · rw [if_neg ha]
          by_cases hb : startsWithCh line (a.data ++ "_REASON:".data) = true
          · rw [if_pos hb]
            simp only
            have haq : q ≠ a := by
              intro hqa
              subst hqa
              rw [hb] at hr
              cases hr
            rw [Function.update_noteq haq]
            exact h2
          · rw [if_neg hb]
            exact h2

theorem foldl_processLine_qInv (q : String) :
    ∀ (lines : List Line) (st : ParseState),
      (∀ line ∈ lines, startsWithCh (stripChars line) (q.data ++ "_LEVEL:".data) = true →
        levelLineWellFormed (stripChars line) = false) →
      (∀ line ∈ lines, startsWithCh (stripChars line) (q.data ++ "_REASON:".data) = false) →
      (∀ lv, st.level q = some lv → lv = 0) → st.reason q = none →
      (∀ lv, (lines.foldl processLine st).level q = some lv → lv = 0) ∧
      (lines.foldl processLine st).reason q = none := by
  intro lines
  induction lines with
  | nil => intro st _ _ h1 h2; exact ⟨h1, h2⟩
  | cons a t ih =>
      intro st hall hnr h1 h2
      simp only [List.foldl_cons]
      have hstep := foldl_processLineFor_qInv (stripChars a) q
        (hall a (List.mem_cons_self a t))
        (hnr a (List.mem_cons_self a t)) qids st h1 h2
      exact ih (processLine st a)
        (fun line hl => hall line (List.mem_cons_of_mem a hl))
        (fun line hl => hnr line (List.mem_cons_of_mem a hl))
        hstep.1 hstep.2

/-- C6 (amended): if the raw batch response contains a level line for a
symptom that fails integer parsing or parses outside [0,3], that line
records level 0; the symptom ends up in the parsed map with level 0 and
reason "Unable to assess" provided every level line for that symptom in
the response is malformed and no reason line for it appears (a later
well-formed level line overwrites the 0 — last write wins — and a reason
line supplies its own text, see the counterexample); malformed input is
never propagated as an error. -/
theorem malformed_level_line_defaults (lines : List Line) (q : String)
    (hq : q ∈ qids)
    (_hml : ∃ line ∈ lines,
      startsWithCh (stripChars line) (q.data ++ "_LEVEL:".data) = true ∧
      levelLineWellFormed (stripChars line) = false)
    (hall : ∀ line ∈ lines,
      startsWithCh (stripChars line) (q.data ++ "_LEVEL:".data) = true →
      levelLineWellFormed (stripChars line) = false)
    (hnr : ∀ line ∈ lines,
      startsWithCh (stripChars line) (q.data ++ "_REASON:".data) = false) :
    (⟨q, 0, "Unable to assess"⟩ : SymptomEntry) ∈ parse_batch_response lines := by
  have h := foldl_processLine_qInv q lines initState hall hnr
    (fun lv hlv => by cases hlv) rfl
  unfold parse_batch_response
  apply List.mem_map.mpr
  refine ⟨q, hq, ?_⟩
  have hlvl : ((lines.foldl processLine initState).level q).getD 0 = 0 := by
    cases hl : (lines.foldl processLine initState).level q with
    | none => rfl
    | some lv => simpa using h.1 lv hl
  simp only [hlvl, h.2, Option.getD_none]

/-- Witness for C6 (amended) at the concrete raw response whose single
line carries the out-of-range level 9 for Q1. -/
theorem malformed_level_line_defaults_witness :
    ("Q1" ∈ qids) ∧
    (⟨"Q1", 0, "Unable to assess"⟩ : SymptomEntry) ∈
      parse_batch_response ["Q1_LEVEL: 9".data] :=
  ⟨by decide,
    malformed_level_line_defaults ["Q1_LEVEL: 9".data] "Q1" (by decide) (by decide)
      (by decide) (by decide)⟩

/-- C6 counterexample: the raw response
"Q1_LEVEL: x" / "Q1_LEVEL: 2" / "Q1_REASON: ok" contains a malformed level
line for Q1, yet Q1 is recorded with level 2 and reason "ok" — a malformed
level line does not by itself force level 0 / "Unable to assess". -/
theorem malformed_level_line_cx :
    startsWithCh (stripChars "Q1_LEVEL: x".data) ("Q1".data ++ "_LEVEL:".data) = true ∧
    levelLineWellFormed (stripChars "Q1_LEVEL: x".data) = false ∧
    (parse_batch_response
        ["Q1_LEVEL: x".data, "Q1_LEVEL: 2".data, "Q1_REASON: ok".data]).head? =
      some ⟨"Q1", 2, "ok"⟩ := by decide

/-- C10: `predict_level` can never return a numeric level — its success
path calls the undefined `_parse_response` method, whose AttributeError is
caught as a non-transient error and converted to `(None, reason)` — and
consequently the per-symptom fallback returns a 21-entry map in which
every symptom's level is 0, whatever the remote service does. -/
theorem predict_level_never_numeric (f : Nat → CallOutcome)
    (scripts : Nat → Nat → CallOutcome) :
    (predict_level f).1 = none ∧
    (assess_all_symptoms_fallback scripts).1.length = 21 ∧
    (∀ e ∈ (assess_all_symptoms_fallback scripts).1, e.level = 0) := by
  refine ⟨predictLevelGo_level_none f 5 0, ?_, ?_⟩
  · have h := (fallbackAux_shape scripts qids.length qids 0).1
    have := congrArg List.length h
    simpa [assess_all_symptoms_fallback, qids_length] using this
  · exact fun e he => (fallbackAux_shape scripts qids.length qids 0).2 e he

/-- Witness for C10 at concrete oracles (batch service always succeeds,
fallback calls always fail outright). -/
theorem predict_level_never_numeric_witness :
    (predict_level (fun _ => CallOutcome.ok [])).1 = none ∧
    (assess_all_symptoms_fallback (fun _ _ => CallOutcome.failure)).1.length = 21 :=
  ⟨(predict_level_never_numeric (fun _ => CallOutcome.ok [])
      (fun _ _ => CallOutcome.failure)).1,
    (predict_level_never_numeric (fun _ => CallOutcome.ok [])
      (fun _ _ => CallOutcome.failure)).2.1⟩

end LLM

namespace DepressionDetection

/-! ### Lemmas and claim theorems for the trend & detection engine -/

theorem sortedEntries_length (rows : List EntryRow) :
    (sortedEntries rows).length = (validEntries rows).length :=
  (List.perm_insertionSort _ _).length_eq

theorem windowEntries_ne_nil (rows : List EntryRow) (wd : Int) (hwd : 0 ≤ wd)
    (hne : sortedEntries rows ≠ []) : windowEntries rows wd ≠ [] := by
  unfold windowEntries
  have hmapne : (sortedEntries rows).map Prod.fst ≠ [] := by
    simpa using hne
  obtain ⟨m, hm⟩ : ∃ m, ((sortedEntries rows).map Prod.fst).max? = some m := by
    cases hmx : ((sortedEntries rows).map Prod.fst).max? with
    | none => exact absurd (List.max?_eq_none_iff.mp hmx) hmapne
    | some m => exact ⟨m, rfl⟩
  have hmem : m ∈ (sortedEntries rows).map Prod.fst :=
    List.max?_mem (fun a b => max_choice a b) hm
  obtain ⟨p, hp, hpm⟩ := List.mem_map.mp hmem
  intro hfil
  have : p ∈ (sortedEntries rows).filter
      (fun q => decide ((((sortedEntries rows).map Prod.fst).max?).getD 0 - wd ≤ q.1)) := by
    apply List.mem_filter.mpr
    refine ⟨hp, ?_⟩
    rw [hm]
    simp only [Option.getD_some, decide_eq_true_eq, hpm]
    omega
  rw [hfil] at this
  cases this

theorem flagProportion_lt_half_iff (flags : List Bool) (h : flags ≠ []) :
    flagProportion flags < 1 / 2 ↔ 2 * flags.count true < flags.length := by
  unfold flagProportion
  rw [if_neg h]
  have hlen : (0 : ℚ) < (flags.length : ℚ) := by
    have : 0 < flags.length := List.length_pos.mpr h
    exact_mod_cast this
  rw [div_lt_iff₀ hlen]
  constructor
  · intro h2
    have h3 : ((2 * flags.count true : Nat) : ℚ) < ((flags.length : Nat) : ℚ) := by
      push_cast
      linarith
    exact_mod_cast h3
  · intro h2
    have h3 : ((2 * flags.count true : Nat) : ℚ) < ((flags.length : Nat) : ℚ) := by
      exact_mod_cast h2
    push_cast at h3
    linarith

/-- C1: for every input whose count of valid (non-NaT, non-NaN) entries is
strictly below MIN_ENTRIES_FOR_DETECTION = 10, `analyze_depression`
returns `depression_detected = False` and `confidence_level = "Low"`,
whatever the scores are. -/
theorem insufficient_data_never_detects (rows : List EntryRow) (windowDays : Int)
    (h : (validEntries rows).length < 10) :
    (analyze_depression rows windowDays).depression_detected = false ∧
    (analyze_depression rows windowDays).confidence_level = "Low" := by
  have hlen := sortedEntries_length rows
  unfold analyze_depression
  by_cases hw : sortedEntries rows = []
  · rw [if_pos hw]
    exact ⟨rfl, rfl⟩
  · rw [if_neg hw]
    dsimp only
    have hmd : ¬ (minEntriesForDetection ≤ (sortedEntries rows).length) := by
      unfold minEntriesForDetection
      omega
    have hlt : (sortedEntries rows).length < minEntriesForDetection := by
      unfold minEntriesForDetection
      omega
    constructor
    · simp [hmd]
    · simp [hlt]

/-- Witness for C1: nine entries, every score maximal (63). -/
theorem insufficient_data_never_detects_witness :
    ((validEntries (List.replicate 9 ⟨some 0, some 63⟩)).length < 10) ∧
    ((analyze_depression (List.replicate 9 ⟨some 0, some 63⟩) 30).depression_detected
        = false ∧
      (analyze_depression (List.replicate 9 ⟨some 0, some 63⟩) 30).confidence_level
        = "Low") :=
  ⟨by decide, insufficient_data_never_detects _ 30 (by decide)⟩

/-- C2: once the 10-entry gate passes, the detection flag equals the
logical OR of the proportion rule (≥ half of the 30-day window entries
score ≥ 10) and the streak rule (≥ 5 consecutive window entries score
≥ 10); in particular a qualifying streak forces detection even when the
window-wide proportion is below one half. -/
theorem detection_is_or_of_rules (rows : List EntryRow)
    (h : 10 ≤ (validEntries rows).length) :
    ((analyze_depression rows 30).depression_detected =
      (decide ((1 : ℚ) / 2 ≤ flagProportion (windowFlags rows 30)) ||
        has_streak (windowFlags rows 30) streakMin)) ∧
    (has_streak (windowFlags rows 30) streakMin = true →
      flagProportion (windowFlags rows 30) < 1 / 2 →
      (analyze_depression rows 30).depression_detected = true) := by
  have hlen := sortedEntries_length rows
  have hw : sortedEntries rows ≠ [] := by
    intro hnil
    rw [hnil] at hlen
    simp at hlen
    omega
  have hwin : windowEntries rows 30 ≠ [] :=
    windowEntries_ne_nil rows 30 (by norm_num) hw
  have hminOk : minEntriesForDetection ≤ (sortedEntries rows).length := by
    unfold minEntriesForDetection
    omega
  have hused : 0 < (windowEntries rows 30).length := List.length_pos.mpr hwin
  have hdet : (analyze_depression rows 30).depression_detected =
      (decide ((1 : ℚ) / 2 ≤ flagProportion (windowFlags rows 30)) ||
        has_streak (windowFlags rows 30) streakMin) := by
    unfold analyze_depression
    rw [if_neg hw]
    dsimp only
    simp [hminOk, hused]
  refine ⟨hdet, ?_⟩
  intro hstreak _
  rw [hdet, hstreak, Bool.or_true]

/-- Witness for C2: twelve window entries, a five-entry streak at score 15
among seven zero-score entries — proportion 5/12 < 1/2 yet detection
fires. -/
theorem detection_is_or_of_rules_witness :
    (10 ≤ (validEntries
      [⟨some 0, some 15⟩, ⟨some 1, some 15⟩, ⟨some 2, some 15⟩, ⟨some 3, some 15⟩,
       ⟨some 4, some 15⟩, ⟨some 5, some 0⟩, ⟨some 6, some 0⟩, ⟨some 7, some 0⟩,
       ⟨some 8, some 0⟩, ⟨some 9, some 0⟩, ⟨some 10, some 0⟩,
       ⟨some 11, some 0⟩]).length) ∧
    (analyze_depression
      [⟨some 0, some 15⟩, ⟨some 1, some 15⟩, ⟨some 2, some 15⟩, ⟨some 3, some 15⟩,
       ⟨some 4, some 15⟩, ⟨some 5, some 0⟩, ⟨some 6, some 0⟩, ⟨some 7, some 0⟩,
       ⟨some 8, some 0⟩, ⟨some 9, some 0⟩, ⟨some 10, some 0⟩,
       ⟨some 11, some 0⟩] 30).depression_detected = true := by
  refine ⟨by decide, ?_⟩
  have hstreak : has_streak (windowFlags
      [⟨some 0, some 15⟩, ⟨some 1, some 15⟩, ⟨some 2, some 15⟩, ⟨some 3, some 15⟩,
       ⟨some 4, some 15⟩, ⟨some 5, some 0⟩, ⟨some 6, some 0⟩, ⟨some 7, some 0⟩,
       ⟨some 8, some 0⟩, ⟨some 9, some 0⟩, ⟨some 10, some 0⟩,
       ⟨some 11, some 0⟩] 30) streakMin = true := by decide
  have hprop : flagProportion (windowFlags
      [⟨some 0, some 15⟩, ⟨some 1, some 15⟩, ⟨some 2, some 15⟩, ⟨some 3, some 15⟩,
       ⟨some 4, some 15⟩, ⟨some 5, some 0⟩, ⟨some 6, some 0⟩, ⟨some 7, some 0⟩,
       ⟨some 8, some 0⟩, ⟨some 9, some 0⟩, ⟨some 10, some 0⟩,
       ⟨some 11, some 0⟩] 30) < 1 / 2 :=
    (flagProportion_lt_half_iff _ (by decide)).mpr (by decide)
  exact (detection_is_or_of_rules _ (by decide)).2 hstreak hprop

/-- C9: the reported trend direction coincides with the spec's
midpoint-split rule with absolute tolerance 0.5 over the time-ordered
valid scores ("Stable" below 4 sessions); in particular a strictly
decreasing score sequence of length ≥ 4 whose half-mean difference
exceeds 0.5 yields "Improving". -/
theorem trend_direction_matches_spec (rows : List EntryRow) :
    ((analyze_depression rows 30).trend_direction =
      trendDirectionSpec ((sortedEntries rows).map Prod.snd)) ∧
    (List.Pairwise (fun a b : ℚ => b < a) ((sortedEntries rows).map Prod.snd) →
      4 ≤ (sortedEntries rows).length →
      1 / 2 < mean (((sortedEntries rows).map Prod.snd).take
          ((sortedEntries rows).length / 2)) -
        mean (((sortedEntries rows).map Prod.snd).drop
          ((sortedEntries rows).length / 2)) →
      (analyze_depression rows 30).trend_direction = "Improving") := by
  have hmain : (analyze_depression rows 30).trend_direction =
      trendDirectionSpec ((sortedEntries rows).map Prod.snd) := by
    unfold analyze_depression trendDirectionSpec
    by_cases hw : sortedEntries rows = []
    · rw [if_pos hw, hw]
      rfl
    · rw [if_neg hw]
      dsimp only
      have hlenmap : ((sortedEntries rows).map Prod.snd).length =
          (sortedEntries rows).length := List.length_map _ _
      by_cases h4 : 4 ≤ (sortedEntries rows).length
      · rw [if_pos h4, hlenmap,
          if_neg (show ¬ ((sortedEntries rows).length < 4) by omega)]
        rw [List.map_take, List.map_drop]
        set e := mean (((sortedEntries rows).map Prod.snd).take
          ((sortedEntries rows).length / 2)) with he
        set r := mean (((sortedEntries rows).map Prod.snd).drop
          ((sortedEntries rows).length / 2)) with hr
        by_cases hc1 : r + 1 / 2 < e
        · rw [if_pos hc1, if_pos (show r < e - 1 / 2 by linarith)]
        · rw [if_neg hc1, if_neg (show ¬ (r < e - 1 / 2) by
            intro hx; exact hc1 (by linarith))]
      · rw [if_neg h4, hlenmap,
          if_pos (show (sortedEntries rows).length < 4 by omega)]
  refine ⟨hmain, ?_⟩
  intro _ h4 hdiff
  rw [hmain]
  unfold trendDirectionSpec
  have hlenmap : ((sortedEntries rows).map Prod.snd).length =
      (sortedEntries rows).length := List.length_map _ _
  rw [if_neg (by omega), hlenmap, if_pos (by linarith)]

/-- Witness for C9: four entries with strictly decreasing scores
30, 20, 10, 0 (half-mean difference 25 − 5 = 20 > 0.5). -/
theorem trend_direction_matches_spec_witness :
    List.Pairwise (fun a b : ℚ => b < a)
      ((sortedEntries [⟨some 0, some 30⟩, ⟨some 1, some 20⟩, ⟨some 2, some 10⟩,
        ⟨some 3, some 0⟩]).map Prod.snd) ∧
    (analyze_depression [⟨some 0, some 30⟩, ⟨some 1, some 20⟩, ⟨some 2, some 10⟩,
        ⟨some 3, some 0⟩] 30).trend_direction = "Improving" := by
  have hs : (sortedEntries [⟨some 0, some 30⟩, ⟨some 1, some 20⟩, ⟨some 2, some 10⟩,
      ⟨some 3, some 0⟩]).map Prod.snd = [30, 20, 10, 0] := by decide
  have hl : (sortedEntries [⟨some 0, some 30⟩, ⟨some 1, some 20⟩, ⟨some 2, some 10⟩,
      ⟨some 3, some 0⟩]).length = 4 := by decide
  refine ⟨by decide, ?_⟩
  apply (trend_direction_matches_spec _).2
  · decide
  · omega
  · rw [hs, hl]
    have ht : (([30, 20, 10, 0] : List ℚ).take (4 / 2)) = [30, 20] := by decide
    have hd : (([30, 20, 10, 0] : List ℚ).drop (4 / 2)) = [10, 0] := by decide
    rw [ht, hd]
    unfold mean
    norm_num

end DepressionDetection

namespace PersonalDashboard

/-! ### Lemmas and claim theorems for the session aggregator -/

theorem sum_of_constant (l : List ℚ) (S : ℚ) (h : ∀ x ∈ l, x = S) :
    l.sum = (l.length : ℚ) * S := by
  induction l with
  | nil => simp
  | cons a t ih =>
      have ha : a = S := h a (List.mem_cons_self a t)
      have ht : t.sum = (t.length : ℚ) * S :=
        ih (fun x hx => h x (List.mem_cons_of_mem a hx))
      simp only [List.sum_cons, List.length_cons, ha, ht]
      push_cast
      ring

theorem uploadSessionFor_some_spec (uploads : List UploadEntry) (k : String)
    (r : SessionRow) (h : uploadSessionFor uploads k = some r) :
    r.session_type = "upload" ∧ r.session_id = k ∧
    (∀ t, parse_uploaded_file_timestamp k = some t → r.dt = t) ∧
    (parse_uploaded_file_timestamp k = none →
      some r.dt = ((uploads.filter (fun e => decide (e.uploaded_file = some k))).filterMap
        (fun e => e.dt)).max?) ∧
    r.score = (if (uploads.filter (fun e => decide (e.uploaded_file = some k))).filterMap
          (fun e => e.score) = [] then none
      else some (((uploads.filter (fun e => decide (e.uploaded_file = some k))).filterMap
          (fun e => e.score)).sum /
        (((uploads.filter (fun e => decide (e.uploaded_file = some k))).filterMap
          (fun e => e.score)).length : ℚ))) := by
  unfold uploadSessionFor at h
  by_cases hk : k = ""
  · rw [if_pos hk] at h
    cases h
  · rw [if_neg hk] at h
    dsimp only at h
    cases hp : parse_uploaded_file_timestamp k with
    | some t =>
        rw [hp] at h
        dsimp only at h
        cases h
        refine ⟨rfl, rfl, ?_, ?_, rfl⟩
        · intro t2 ht2
          cases ht2
          rfl
        · intro hn
          cases hn
    | none =>
        rw [hp] at h
        dsimp only at h
        cases hm : ((uploads.filter (fun e => decide (e.uploaded_file = some k))).filterMap
            (fun e => e.dt)).max? with
        | none =>
            rw [hm] at h
            cases h
        | some m =>
            rw [hm] at h
            dsimp only at h
            cases h
            refine ⟨rfl, rfl, ?_, ?_, rfl⟩
            · intro t2 ht2
              cases ht2
            · intro _
              rfl

theorem uploadSessionFor_isSome (uploads : List UploadEntry) (k : String)
    (hk : k ≠ "") (hmem : ∃ e ∈ uploads, e.uploaded_file = some k ∧ e.dt ≠ none) :
    ∃ r, uploadSessionFor uploads k = some r := by
  unfold uploadSessionFor
  rw [if_neg hk]
  dsimp only
  cases hp : parse_uploaded_file_timestamp k with
  | some t => exact ⟨_, rfl⟩
  | none =>
      obtain ⟨e, he, hek, hed⟩ := hmem
      obtain ⟨d, hd⟩ := Option.ne_none_iff_exists'.mp hed
      have heg : e ∈ uploads.filter (fun e => decide (e.uploaded_file = some k)) :=
        List.mem_filter.mpr ⟨he, by simp [hek]⟩
      have hdm : d ∈ (uploads.filter (fun e => decide (e.uploaded_file = some k))).filterMap
          (fun e => e.dt) :=
        List.mem_filterMap.mpr ⟨e, heg, hd⟩
      have hne : (uploads.filter (fun e => decide (e.uploaded_file = some k))).filterMap
          (fun e => e.dt) ≠ [] := List.ne_nil_of_mem hdm
      cases hm : ((uploads.filter (fun e => decide (e.uploaded_file = some k))).filterMap
          (fun e => e.dt)).max? with
      | none => exact absurd (List.max?_eq_none_iff.mp hm) hne
      | some m => exact ⟨_, rfl⟩

theorem filterMap_score_const (g : List UploadEntry) (S : ℚ)
    (h : ∀ e ∈ g, e.score = some S) :
    g.filterMap (fun e => e.score) = List.replicate g.length S := by
  induction g with
  | nil => rfl
  | cons a t ih =>
      have ha : a.score = some S := h a (List.mem_cons_self a t)
      have ht := ih (fun e he => h e (List.mem_cons_of_mem a he))
      simp [List.filterMap_cons, ha, ht, List.replicate_succ]

theorem mem_build_session_df_upload (entries : List UploadEntry) (r : SessionRow)
    (hr : r ∈ build_session_df entries) (hup : r.session_type = "upload") :
    ∃ k ∈ ((uploadsOf entries).filterMap (fun e => e.uploaded_file)).dedup,
      uploadSessionFor (uploadsOf entries) k = some r := by
  unfold build_session_df at hr
  dsimp only at hr
  have hperm := List.perm_insertionSort (fun a b : SessionRow => a.dt ≤ b.dt)
    (((validWork entries).filter (fun e => decide (e.entry_type ≠ "by_upload"))).map
        (fun e => ⟨"typed", strOfId e.entry_id, e.dt.getD 0, e.score⟩) ++
      ((uploadsOf entries).filterMap (fun e => e.uploaded_file)).dedup.filterMap
        (uploadSessionFor (uploadsOf entries)))
  have hr2 := hperm.mem_iff.mp hr
  rcases List.mem_append.mp hr2 with h | h
  · exfalso
    obtain ⟨e, _, he⟩ := List.mem_map.mp h
    rw [← he] at hup
    simp at hup
  · exact List.mem_filterMap.mp h

theorem countP_sessions_zero (uploads : List UploadEntry) (k : String) :
    ∀ keys : List String, k ∉ keys →
      (keys.filterMap (uploadSessionFor uploads)).countP
        (fun r => decide (r.session_type = "upload" ∧ r.session_id = k)) = 0 := by
  intro keys
  induction keys with
  | nil => intro _; rfl
  | cons k2 rest ih =>
      intro hnot
      have hk2 : k2 ≠ k := by
        intro he
        exact hnot (he ▸ List.mem_cons_self k2 rest)
      have hrest : k ∉ rest := fun hm => hnot (List.mem_cons_of_mem k2 hm)
      cases hf : uploadSessionFor uploads k2 with
      | none => simp only [List.filterMap_cons, hf]; exact ih hrest
      | some r =>
          have hid : r.session_id = k2 :=
            (uploadSessionFor_some_spec uploads k2 r hf).2.1
          simp only [List.filterMap_cons, hf]
          rw [List.countP_cons_of_neg]
          · exact ih hrest
          · simp only [decide_eq_true_eq, not_and]
            intro _
            rw [hid]
            exact hk2

theorem countP_sessions_one (uploads : List UploadEntry) (k : String) :
    ∀ keys : List String, keys.Nodup → k ∈ keys →
      (∃ r, uploadSessionFor uploads k = some r) →
      (keys.filterMap (uploadSessionFor uploads)).countP
        (fun r => decide (r.session_type = "upload" ∧ r.session_id = k)) = 1 := by
  intro keys
  induction keys with
  | nil => intro _ hk; cases hk
  | cons k2 rest ih =>
      intro hnd hk hsome
      rcases List.mem_cons.mp hk with he | hm
      · subst he
        obtain ⟨r, hr⟩ := hsome
        have spec := uploadSessionFor_some_spec uploads k r hr
        have hnotrest : k ∉ rest := (List.nodup_cons.mp hnd).1
        simp only [List.filterMap_cons, hr]
        rw [List.countP_cons_of_pos]
        · rw [countP_sessions_zero uploads k rest hnotrest]
        · simp [spec.1, spec.2.1]
      · have hk2 : k2 ≠ k := by
          intro he
          subst he
          exact (List.nodup_cons.mp hnd).1 hm
        have hrest := ih (List.nodup_cons.mp hnd).2 hm hsome
        cases hf : uploadSessionFor uploads k2 with
        | none => simp only [List.filterMap_cons, hf]; exact hrest
        | some r =>
            have hid : r.session_id = k2 :=
              (uploadSessionFor_some_spec uploads k2 r hf).2.1
            simp only [List.filterMap_cons, hf]
            rw [List.countP_cons_of_neg]
            · exact hrest
            · simp only [decide_eq_true_eq, not_and]
              intro _
              rw [hid]
              exact hk2

/-- C7: when every member of an upload batch (one non-empty uploaded-file
key) carries the same total score S, the collapsed Session's
avg_total_score is exactly S; and distinct batch keys always yield
distinct Sessions — exactly one session row exists for the key, its score
averages only that key's members, and rows with different keys are
different rows. -/
theorem upload_batch_average_and_no_blending (entries : List UploadEntry)
    (k : String) (S : ℚ) (hk : k ≠ "")
    (hmem : ∃ e ∈ entries, e.entry_type = "by_upload" ∧ e.uploaded_file = some k ∧
      e.dt ≠ none)
    (hall : ∀ e ∈ entries, e.entry_type = "by_upload" → e.uploaded_file = some k →
      e.dt ≠ none → e.score = some S) :
    ((build_session_df entries).countP
        (fun r => decide (r.session_type = "upload" ∧ r.session_id = k)) = 1) ∧
    (∀ r ∈ build_session_df entries, r.session_type = "upload" → r.session_id = k →
      r.score = some S) ∧
    (∀ r1 ∈ build_session_df entries, ∀ r2 ∈ build_session_df entries,
      r1.session_id ≠ r2.session_id → r1 ≠ r2) := by
  obtain ⟨e0, he0, he0ty, he0k, he0dt⟩ := hmem
  have he0w : e0 ∈ validWork entries :=
    List.mem_filter.mpr ⟨he0, by simp [he0dt]⟩
  have he0u : e0 ∈ uploadsOf entries :=
    List.mem_filter.mpr ⟨he0w, by simp [he0ty]⟩
  have hmemU : ∃ e ∈ uploadsOf entries, e.uploaded_file = some k ∧ e.dt ≠ none :=
    ⟨e0, he0u, he0k, he0dt⟩
  have hkmem : k ∈ ((uploadsOf entries).filterMap (fun e => e.uploaded_file)).dedup :=
    List.mem_dedup.mpr (List.mem_filterMap.mpr ⟨e0, he0u, he0k⟩)
  have hsome := uploadSessionFor_isSome (uploadsOf entries) k hk hmemU
  have hallg : ∀ e ∈ (uploadsOf entries).filter
      (fun e => decide (e.uploaded_file = some k)), e.score = some S := by
    intro e he
    obtain ⟨heu, hef⟩ := List.mem_filter.mp he
    obtain ⟨hew, hety⟩ := List.mem_filter.mp heu
    obtain ⟨hee, hed⟩ := List.mem_filter.mp hew
    simp only [decide_eq_true_eq] at hef hety hed
    exact hall e hee hety hef hed
  have hscore : ∀ r : SessionRow,
      uploadSessionFor (uploadsOf entries) k = some r → r.score = some S := by
    intro r hr
    have spec := (uploadSessionFor_some_spec (uploadsOf entries) k r hr).2.2.2.2
    set g := (uploadsOf entries).filter (fun e => decide (e.uploaded_file = some k))
      with hg
    have hgne : g ≠ [] :=
      List.ne_nil_of_mem (List.mem_filter.mpr ⟨he0u, by simp [he0k]⟩)
    have hrep : g.filterMap (fun e => e.score) = List.replicate g.length S :=
      filterMap_score_const g S hallg
    have hglen : 0 < g.length := List.length_pos.mpr hgne
    rw [hrep] at spec
    have hrepne : List.replicate g.length S ≠ [] := by
      intro hnil
      have hg0 : g.length = 0 := by
        cases hgl : g.length with
        | zero => rfl
        | succ n => rw [hgl, List.replicate_succ] at hnil; cases hnil
      omega
    rw [if_neg hrepne] at spec
    rw [spec]
    congr 1
    rw [List.sum_replicate, List.length_replicate, nsmul_eq_mul]
    have hq : ((g.length : ℚ)) ≠ 0 := by
      exact_mod_cast Nat.pos_iff_ne_zero.mp hglen
    field_simp
  have hperm := List.perm_insertionSort (fun a b : SessionRow => a.dt ≤ b.dt)
    (((validWork entries).filter (fun e => decide (e.entry_type ≠ "by_upload"))).map
        (fun e => ⟨"typed", strOfId e.entry_id, e.dt.getD 0, e.score⟩) ++
      ((uploadsOf entries).filterMap (fun e => e.uploaded_file)).dedup.filterMap
        (uploadSessionFor (uploadsOf entries)))
  refine ⟨?_, ?_, ?_⟩
  · show (build_session_df entries).countP _ = 1
    unfold build_session_df
    dsimp only
    rw [hperm.countP_eq]
    rw [List.countP_append]
    have htyped : (((validWork entries).filter
        (fun e => decide (e.entry_type ≠ "by_upload"))).map
          (fun e => (⟨"typed", strOfId e.entry_id, e.dt.getD 0, e.score⟩ : SessionRow))).countP
        (fun r => decide (r.session_type = "upload" ∧ r.session_id = k)) = 0 := by
      rw [List.countP_eq_zero]
      intro r hrty
      obtain ⟨e, _, he⟩ := List.mem_map.mp hrty
      rw [← he]
      simp
    rw [htyped, countP_sessions_one (uploadsOf entries) k _
      (List.nodup_dedup _) hkmem hsome]
  · intro r hr hrty hrid
    obtain ⟨k2, _, hf⟩ := mem_build_session_df_upload entries r hr hrty
    have hid : r.session_id = k2 := (uploadSessionFor_some_spec _ _ _ hf).2.1
    have hk2 : k2 = k := by rw [← hid, hrid]
    subst hk2
    exact hscore r hf
  · intro r1 _ r2 _ hne heq
    exact hne (congrArg SessionRow.session_id heq)

/-- Witness for C7: one batch of two members under key "k_1", both scored
4; the collapsed session averages to 4. -/
theorem upload_batch_average_and_no_blending_witness :
    (((build_session_df
        [⟨"by_upload", some "k_1", none, some 5, some 4⟩,
         ⟨"by_upload", some "k_1", none, some 9, some 4⟩]).countP
        (fun r => decide (r.session_type = "upload" ∧ r.session_id = "k_1")) = 1)) ∧
    (∀ r ∈ build_session_df
        [⟨"by_upload", some "k_1", none, some 5, some 4⟩,
         ⟨"by_upload", some "k_1", none, some 9, some 4⟩],
      r.session_type = "upload" → r.session_id = "k_1" → r.score = some 4) := by
  have h := upload_batch_average_and_no_blending
    [⟨"by_upload", some "k_1", none, some 5, some 4⟩,
     ⟨"by_upload", some "k_1", none, some 9, some 4⟩]
    "k_1" 4 (by decide) (by decide) (by decide)
  exact ⟨h.1, h.2.1⟩

/-- C8 (amended): an upload Session's timestamp is the batch processing
time parsed from the trailing YYYYMMDD_HHMMSS token of the uploaded-file
key whenever that token parses; only when the key carries no parsable
token (e.g. no underscore) does the timestamp fall back to the latest
member entry's own timestamp. -/
theorem upload_session_timestamp (entries : List UploadEntry) (r : SessionRow)
    (hr : r ∈ build_session_df entries) (hup : r.session_type = "upload") :
    (∀ t, parse_uploaded_file_timestamp r.session_id = some t → r.dt = t) ∧
    (parse_uploaded_file_timestamp r.session_id = none →
      some r.dt = ((uploadGroup entries r.session_id).filterMap
        (fun e => e.dt)).max?) := by
  obtain ⟨k, _, hf⟩ := mem_build_session_df_upload entries r hr hup
  have spec := uploadSessionFor_some_spec (uploadsOf entries) k r hf
  have hid : r.session_id = k := spec.2.1
  rw [hid]
  unfold uploadGroup
  exact ⟨spec.2.2.1, spec.2.2.2.1⟩

/-- Witness for C8 (amended): a key with a parsable trailing timestamp
token; the session timestamp is the parsed batch time (encoded
2024-01-15 10:30:00), not the member's timestamp 1. -/
theorem upload_session_timestamp_witness :
    ((⟨"upload", "wa.txt_20240115_103000", 72751516200, none⟩ : SessionRow) ∈
      build_session_df
        [⟨"by_upload", some "wa.txt_20240115_103000", none, some 1, none⟩]) ∧
    (∀ t, parse_uploaded_file_timestamp "wa.txt_20240115_103000" = some t →
      (72751516200 : Int) = t) := by
  refine ⟨by decide, ?_⟩
  have h := upload_session_timestamp
    [⟨"by_upload", some "wa.txt_20240115_103000", none, some 1, none⟩]
    ⟨"upload", "wa.txt_20240115_103000", 72751516200, none⟩
    (by decide) (by decide)
  exact h.1

/-- C8 counterexample: the key "chat.txt" has no underscore, so the
timestamp parse fails and the collapsed session's timestamp is 500 — the
member entry's own claimed timestamp — refuting "never any individual
member message's claimed timestamp". -/
theorem upload_session_timestamp_cx :
    parse_uploaded_file_timestamp "chat.txt" = none ∧
    (build_session_df [⟨"by_upload", some "chat.txt", none, some 500, some 7⟩]).map
      (fun r => r.dt) = [500] := by decide

end PersonalDashboard

end MindCare
